import Mathlib

/-!
Shallow embedding of the spaced-repetition scheduling core
(`sr-algorithm.js`, module `SRAlgorithm`) together with the queue
construction of `app.js` (`startStudySession`) that feeds it.

Modelling conventions:
* JavaScript numbers are modelled as rationals (`ℚ`); every arithmetic
  operation the engine performs (+, −, ×, `Math.max`, `Math.round`) is exact
  on the values the engine manipulates.  `Math.round x = ⌊x + 0.5⌋` for all
  doubles, which coincides with Mathlib's `round` on `ℚ`.
* Calendar dates are `YYYY-MM-DD` strings in the source, compared
  lexicographically (`<`, `===`, `localeCompare`), which for such strings
  coincides with chronological order; they are modelled as day numbers in
  `ℚ`, and `addDays` becomes addition.  A date string is never empty, so
  JavaScript truthiness of a possibly-`null` date field is `Option.isSome`.
* The ambient `new Date()` and `Math.random()` reads are threaded as
  explicit parameters `now`, `today` and `fuzzDraw`; the source draws
  `fuzzDraw = Math.random() * 2 - 1 ∈ [-1, 1)`.
* `card.sr` is spread-copied (`{ ...card.sr }`) before updating, but the
  spread is shallow: the `history` array reference is shared with the input
  card, and `sr.history.push(...)` mutates that shared array whenever the
  input card carried a history array.  The heap effect on the input card is
  captured by `inputHistoryAfterCall` below.
-/

namespace SRAlgorithm

/-- Defaults of the module (`DEFAULT_LEARNING_STEPS = [1, 10]` minutes). -/
def DEFAULT_LEARNING_STEPS : List ℚ := [1, 10]

def DEFAULT_GRADUATING_INTERVAL : ℚ := 1

def DEFAULT_EASY_INTERVAL : ℚ := 4

def MIN_EASE_FACTOR : ℚ := 1.3

def DEFAULT_EASE_FACTOR : ℚ := 2.5

/-- States a card's `sr.state` string can take (`'new'`, `'learning'`,
`'review'`, per the data schema and everything `storage.js` ever writes). -/
inductive CardState
  | new
  | learning
  | review
deriving DecidableEq, Repr

/-- One entry of `sr.history`, as pushed by `calculateNextReview`. -/
structure ReviewRecord where
  date : ℚ
  quality : ℤ
  interval : ℚ
  easeFactor : ℚ
deriving DecidableEq, Repr

/-- The `sr` scheduling object attached to each card. -/
structure SR where
  state : CardState
  interval : ℚ
  easeFactor : ℚ
  repetitions : ℕ
  dueDate : Option ℚ
  lastReview : Option ℚ
  learningStep : ℕ
  history : Option (List ReviewRecord)
deriving DecidableEq, Repr

/-- A card; the engine reads only `card.sr`, `id` stands for the rest. -/
structure Card where
  id : ℕ
  sr : SR
deriving DecidableEq, Repr

/-- Collection settings as passed to the engine; `none` models an absent
(`undefined`) field. -/
structure Settings where
  learningSteps : Option (List ℚ) := none
  graduatingInterval : Option ℚ := none
  easyInterval : Option ℚ := none
  newCardsPerDay : Option ℕ := none
  reviewsPerDay : Option ℕ := none
deriving DecidableEq, Repr

/-- JavaScript `x || d` on a possibly-absent numeric field: `undefined` and
the falsy number `0` both yield the default. -/
def jsOrNum (x : Option ℚ) (d : ℚ) : ℚ :=
  match x with
  | none => d
  | some v => if v = 0 then d else v

/-- JavaScript `x || d` on a possibly-absent nonnegative-integer field. -/
def jsOrNat (x : Option ℕ) (d : ℕ) : ℕ :=
  match x with
  | none => d
  | some v => if v = 0 then d else v

/-- JavaScript `x || d` on a possibly-absent array field: an array is truthy
even when empty, so only `undefined`/`null` yields the default. -/
def jsOrList (x : Option (List ℚ)) (d : List ℚ) : List ℚ :=
  match x with
  | none => d
  | some v => v

/-- Source `addDays(date, days)` on day numbers. -/
def addDays (date days : ℚ) : ℚ := date + days

/-- Source `applyFuzz(interval)`: unchanged when `interval <= 7`, otherwise
`Math.round(interval + (Math.random() * 2 - 1) * (interval * 0.05))`; the
random draw `Math.random() * 2 - 1` is the explicit parameter `draw`. -/
def applyFuzz (draw interval : ℚ) : ℚ :=
  if interval ≤ 7 then interval
  else
    let fuzz := interval * 0.05
    ((round (interval + draw * fuzz) : ℤ) : ℚ)

/-- Source `handleLearningCard(sr, quality, learningSteps, graduatingInterval,
easyInterval, today)`. -/
def handleLearningCard (sr : SR) (quality : ℤ) (learningSteps : List ℚ)
    (graduatingInterval easyInterval today : ℚ) : SR :=
  if quality = 0 then
    { sr with state := .learning, learningStep := 0, repetitions := 0,
              dueDate := some today }
  else if quality = 3 then
    { sr with state := .review, interval := easyInterval,
              dueDate := some (addDays today easyInterval),
              repetitions := 1, learningStep := 0 }
  else
    let nextStep := sr.learningStep + 1
    if learningSteps.length ≤ nextStep then
      { sr with state := .review, interval := graduatingInterval,
                dueDate := some (addDays today graduatingInterval),
                repetitions := 1, learningStep := 0 }
    else
      { sr with state := .learning, learningStep := nextStep,
                dueDate := some today }

/-- Source `handleReviewCard(sr, quality, today)`; `fuzzDraw` is the random
draw consumed by `applyFuzz`. -/
def handleReviewCard (sr : SR) (quality : ℤ) (today fuzzDraw : ℚ) : SR :=
  if quality = 0 then
    { sr with state := .learning, learningStep := 0, repetitions := 0,
              easeFactor := max MIN_EASE_FACTOR (sr.easeFactor - 0.2),
              interval := max 1 ((round (sr.interval * 0.5) : ℤ) : ℚ),
              dueDate := some today }
  else
    let efDelta : ℚ :=
      0.1 - (3 - (quality : ℚ)) * (0.08 + (3 - (quality : ℚ)) * 0.02)
    let easeFactor := max MIN_EASE_FACTOR (sr.easeFactor + efDelta)
    let newInterval0 : ℚ :=
      if sr.repetitions = 0 then 1
      else if sr.repetitions = 1 then 6
      else ((round (sr.interval * easeFactor) : ℤ) : ℚ)
    let newInterval1 : ℚ :=
      if quality = 1 then ((round (newInterval0 * 0.8) : ℤ) : ℚ)
      else if quality = 3 then ((round (newInterval0 * 1.3) : ℤ) : ℚ)
      else newInterval0
    let newInterval2 := applyFuzz fuzzDraw newInterval1
    let newInterval := max 1 newInterval2
    { sr with easeFactor := easeFactor, interval := newInterval,
              dueDate := some (addDays today newInterval),
              repetitions := sr.repetitions + 1 }

/-- The history record pushed at the top of `calculateNextReview`, capturing
the pre-update `interval` and `easeFactor`. -/
def reviewRecordOf (sr : SR) (quality : ℤ) (now : ℚ) : ReviewRecord :=
  { date := now, quality := quality, interval := sr.interval,
    easeFactor := sr.easeFactor }

/-- Source `calculateNextReview(card, quality, settings)`.  `now` is the
timestamp read from `new Date()`, `today` its date part, and `fuzzDraw` the
random draw used inside `applyFuzz` (only reached on the review path). -/
def calculateNextReview (card : Card) (quality : ℤ) (settings : Settings)
    (now today fuzzDraw : ℚ) : SR :=
  let learningSteps := jsOrList settings.learningSteps DEFAULT_LEARNING_STEPS
  let graduatingInterval :=
    jsOrNum settings.graduatingInterval DEFAULT_GRADUATING_INTERVAL
  let easyInterval := jsOrNum settings.easyInterval DEFAULT_EASY_INTERVAL
  let sr0 := card.sr
  let sr : SR :=
    { sr0 with
      history := some ((sr0.history.getD []) ++ [reviewRecordOf sr0 quality now]),
      lastReview := some now }
  if sr.state = .new ∨ sr.state = .learning then
    handleLearningCard sr quality learningSteps graduatingInterval easyInterval
      today
  else
    handleReviewCard sr quality today fuzzDraw

/-- Heap effect of `calculateNextReview` on the INPUT card's `sr.history`:
`{ ...card.sr }` copies the array reference, `sr.history = sr.history || []`
keeps that alias whenever the input carried an array (even an empty one —
arrays are truthy), and `push` then mutates the shared array.  Only a `null`
or `undefined` input history is replaced by a fresh array, leaving the input
card untouched. -/
def inputHistoryAfterCall (card : Card) (quality : ℤ) (now : ℚ) :
    Option (List ReviewRecord) :=
  match card.sr.history with
  | none => none
  | some h => some (h ++ [reviewRecordOf card.sr quality now])

/-- Boolean test `card.sr.state === 'new'`. -/
def isNew (c : Card) : Bool := c.sr.state == CardState.new

/-- Boolean test `card.sr.state === 'learning'`. -/
def isLearning (c : Card) : Bool := c.sr.state == CardState.learning

/-- Truthiness of `card.sr.dueDate` (a date string is never empty). -/
def hasDue (c : Card) : Bool := c.sr.dueDate.isSome

/-- The due date used in comparisons; only read under `hasDue`. -/
def dueKey (c : Card) : ℚ := c.sr.dueDate.getD 0

/-- Category test for the `overdue` bucket of `sortStudyQueue`: not new, not
learning, truthy `dueDate`, and `dueDate < today`. -/
def isOverdueFor (today : ℚ) (c : Card) : Bool :=
  !isNew c && !isLearning c && hasDue c && decide (dueKey c < today)

/-- Category test for the `dueReview` bucket of `sortStudyQueue`: not new,
not learning, truthy `dueDate`, and `dueDate === today` (reached only when
not `< today`). -/
def isDueTodayFor (today : ℚ) (c : Card) : Bool :=
  !isNew c && !isLearning c && hasDue c && decide (dueKey c = today)

/-- Comparator `a.sr.dueDate.localeCompare(b.sr.dueDate)` as the nonstrict
order a stable ascending sort realises. -/
def rDue (a b : Card) : Prop := dueKey a ≤ dueKey b

/-- Comparator `a.sr.easeFactor - b.sr.easeFactor` as the nonstrict order a
stable ascending sort realises. -/
def rEase (a b : Card) : Prop := a.sr.easeFactor ≤ b.sr.easeFactor

/-- Comparator `a.sr.learningStep - b.sr.learningStep` as the nonstrict
order a stable ascending sort realises. -/
def rStep (a b : Card) : Prop := a.sr.learningStep ≤ b.sr.learningStep

instance : DecidableRel rDue := fun a b =>
  inferInstanceAs (Decidable (dueKey a ≤ dueKey b))

instance : DecidableRel rEase := fun a b =>
  inferInstanceAs (Decidable (a.sr.easeFactor ≤ b.sr.easeFactor))

instance : DecidableRel rStep := fun a b =>
  inferInstanceAs (Decidable (a.sr.learningStep ≤ b.sr.learningStep))

instance : IsTotal Card rDue := ⟨fun a b => le_total (dueKey a) (dueKey b)⟩

instance : IsTrans Card rDue := ⟨fun _ _ _ h h' => le_trans h h'⟩

instance : IsTotal Card rEase :=
  ⟨fun a b => le_total a.sr.easeFactor b.sr.easeFactor⟩

instance : IsTrans Card rEase := ⟨fun _ _ _ h h' => le_trans h h'⟩

instance : IsTotal Card rStep :=
  ⟨fun a b => le_total a.sr.learningStep b.sr.learningStep⟩

instance : IsTrans Card rStep := ⟨fun _ _ _ h h' => le_trans h h'⟩

/-- Source `sortStudyQueue(cards)`: the `forEach` distributes the cards over
four buckets in input order (a stable filter per bucket; review cards whose
`dueDate` is falsy or strictly in the future are dropped), each bucket is
sorted with the JavaScript stable `Array.prototype.sort` under the
comparator noted above, and the buckets are concatenated. -/
def sortStudyQueue (today : ℚ) (cards : List Card) : List Card :=
  let overdue := cards.filter (isOverdueFor today)
  let dueReview := cards.filter (isDueTodayFor today)
  let learning := cards.filter isLearning
  let newCards := cards.filter isNew
  List.insertionSort rDue overdue ++ List.insertionSort rEase dueReview ++
    List.insertionSort rStep learning ++ newCards

/-- Source `getDueCards(cards, date)`: new and learning cards are always
due; review cards are due when `dueDate` is truthy and `dueDate <= date`. -/
def getDueCards (dateString : ℚ) (cards : List Card) : List Card :=
  cards.filter fun c =>
    isNew c || isLearning c || (hasDue c && decide (dueKey c ≤ dateString))

/-- Queue construction of `app.js` `startStudySession`: take the due cards,
cap new cards at `settings?.newCardsPerDay || 20` and the rest at
`settings?.reviewsPerDay || 200` (both caps applied with `slice(0, limit)`
i.e. `take`), concatenate reviews-then-new, and sort with
`sortStudyQueue`. -/
def startStudySessionQueue (today : ℚ) (settings : Option Settings)
    (allCards : List Card) : List Card :=
  let dueCards := getDueCards today allCards
  let newLimit := jsOrNat (settings.bind (·.newCardsPerDay)) 20
  let reviewLimit := jsOrNat (settings.bind (·.reviewsPerDay)) 200
  let newCards := (dueCards.filter isNew).take newLimit
  let reviewCards := (dueCards.filter (fun c => !isNew c)).take reviewLimit
  sortStudyQueue today (reviewCards ++ newCards)

/-- Result record of `getStudyStats`. -/
structure Stats where
  total : ℕ
  new : ℕ
  learning : ℕ
  review : ℕ
  dueToday : ℕ
  averageEase : ℚ
deriving DecidableEq, Repr

/-- One iteration of the `forEach` accumulation inside `getStudyStats`; the
accumulator is (newCount, learningCount, reviewCount, dueToday, totalEase). -/
def statsStep (today : ℚ) (acc : ℕ × ℕ × ℕ × ℕ × ℚ) (card : Card) :
    ℕ × ℕ × ℕ × ℕ × ℚ :=
  let te := acc.2.2.2.2 + card.sr.easeFactor
  match card.sr.state with
  | .new => (acc.1 + 1, acc.2.1, acc.2.2.1, acc.2.2.2.1 + 1, te)
  | .learning => (acc.1, acc.2.1 + 1, acc.2.2.1, acc.2.2.2.1 + 1, te)
  | .review =>
    if hasDue card ∧ dueKey card ≤ today then
      (acc.1, acc.2.1, acc.2.2.1 + 1, acc.2.2.2.1 + 1, te)
    else
      (acc.1, acc.2.1, acc.2.2.1 + 1, acc.2.2.2.1, te)

/-- Source `getStudyStats(cards)`. -/
def getStudyStats (today : ℚ) (cards : List Card) : Stats :=
  let acc := cards.foldl (statsStep today) (0, 0, 0, 0, 0)
  { total := cards.length, new := acc.1, learning := acc.2.1,
    review := acc.2.2.1, dueToday := acc.2.2.2.1,
    averageEase :=
      if 0 < cards.length then acc.2.2.2.2 / (cards.length : ℚ)
      else DEFAULT_EASE_FACTOR }

/-- One iteration of the outer `forEach` inside `calculateRetention`; the
accumulator is (totalReviews, correctReviews).  A `null` history is skipped
(`if (card.sr.history)`); an array is iterated. -/
def retentionStep (acc : ℕ × ℕ) (card : Card) : ℕ × ℕ :=
  match card.sr.history with
  | none => acc
  | some h =>
    h.foldl
      (fun a rev => (a.1 + 1, if 2 ≤ rev.quality then a.2 + 1 else a.2)) acc

/-- Source `calculateRetention(cards)`. -/
def calculateRetention (cards : List Card) : ℚ :=
  let acc := cards.foldl retentionStep (0, 0)
  if 0 < acc.1 then ((acc.2 : ℚ) / (acc.1 : ℚ)) * 100 else 0

/-- A freshly created card as `storage.js` `cards.create` initialises it:
state `'new'`, `interval 0`, `easeFactor 2.5`, `repetitions 0`, no due date,
no last review, `learningStep 0`, empty history array. -/
def freshSR : SR :=
  { state := .new, interval := 0, easeFactor := 2.5, repetitions := 0,
    dueDate := none, lastReview := none, learningStep := 0,
    history := some [] }

/-- A fresh new card. -/
def exNewCard : Card := ⟨3, freshSR⟩

/-- Review-state card of spec Scenario 2: `interval = 30`,
`easeFactor = 2.5`, `repetitions = 5`. -/
def exLapseCard : Card :=
  ⟨7, { state := .review, interval := 30, easeFactor := 2.5, repetitions := 5,
        dueDate := some 100, lastReview := none, learningStep := 0,
        history := some [] }⟩

end SRAlgorithm

namespace SRAlgorithm

/-- Claim C3: a Review-state card rated quality 0 lapses to Learning with
`learningStep = 0`, `repetitions = 0`,
`easeFactor = max(1.3, easeFactor − 0.2)`,
`interval = max(1, round(interval × 0.5))`, `dueDate = today`; the result
does not depend on the fuzz draw (no fuzz on this Learning-state result). -/
theorem C3_review_lapse (card : Card) (settings : Settings)
    (now today fuzzDraw : ℚ) (hstate : card.sr.state = .review) :
    (calculateNextReview card 0 settings now today fuzzDraw).state =
        .learning ∧
    (calculateNextReview card 0 settings now today fuzzDraw).learningStep
        = 0 ∧
    (calculateNextReview card 0 settings now today fuzzDraw).repetitions
        = 0 ∧
    (calculateNextReview card 0 settings now today fuzzDraw).easeFactor =
        max 1.3 (card.sr.easeFactor - 0.2) ∧
    (calculateNextReview card 0 settings now today fuzzDraw).interval =
        max 1 ((round (card.sr.interval * 0.5) : ℤ) : ℚ) ∧
    (calculateNextReview card 0 settings now today fuzzDraw).dueDate =
        some today ∧
    (∀ draw : ℚ, calculateNextReview card 0 settings now today draw =
        calculateNextReview card 0 settings now today fuzzDraw) := by
  simp [calculateNextReview, handleReviewCard, hstate, MIN_EASE_FACTOR]

/-- Witness for C3 at spec Scenario 2: the card with `interval = 30`,
`easeFactor = 2.5`, `repetitions = 5` lapses to Learning with
`easeFactor = 2.3` and `interval = 15`. -/
theorem C3_review_lapse_witness :
    (calculateNextReview exLapseCard 0 {} 0 0 0).state = .learning ∧
    (calculateNextReview exLapseCard 0 {} 0 0 0).learningStep = 0 ∧
    (calculateNextReview exLapseCard 0 {} 0 0 0).repetitions = 0 ∧
    (calculateNextReview exLapseCard 0 {} 0 0 0).easeFactor = 2.3 ∧
    (calculateNextReview exLapseCard 0 {} 0 0 0).interval = 15 ∧
    (calculateNextReview exLapseCard 0 {} 0 0 0).dueDate = some 0 := by
  have h := C3_review_lapse exLapseCard {} 0 0 0 rfl
  refine ⟨h.1, h.2.1, h.2.2.1, ?_, ?_, h.2.2.2.2.2.1⟩
  · rw [h.2.2.2.1]; norm_num [exLapseCard, max_def]
  · rw [h.2.2.2.2.1]; norm_num [exLapseCard, max_def, round_eq]

/-- Claim C7: for every card whose ease factor is at least 1.3 on entry and
every quality rating in 0–3, the ease factor returned by
`calculateNextReview` is at least 1.3. -/
theorem C7_ease_factor_floor (card : Card) (quality : ℤ)
    (settings : Settings) (now today fuzzDraw : ℚ)
    (hq : 0 ≤ quality ∧ quality ≤ 3)
    (hef : (1.3 : ℚ) ≤ card.sr.easeFactor) :
    (1.3 : ℚ) ≤
      (calculateNextReview card quality settings now today
        fuzzDraw).easeFactor := by
  unfold calculateNextReview handleLearningCard handleReviewCard
  simp only [MIN_EASE_FACTOR]
  split
  · split_ifs <;> simpa using hef
  · split_ifs <;> exact le_max_left _ _

/-- Witness for C7: a fresh card rated quality 2 keeps an ease factor of at
least 1.3. -/
theorem C7_ease_factor_floor_witness :
    (1.3 : ℚ) ≤
      (calculateNextReview exNewCard 2 {} 0 0 0).easeFactor :=
  C7_ease_factor_floor exNewCard 2 {} 0 0 0 ⟨by decide, by decide⟩
    (by norm_num [exNewCard, freshSR])

/-- A malformed Review-state card lacking a `dueDate` (claim C8). -/
def exMalformedCard : Card :=
  ⟨9, { state := .review, interval := 10, easeFactor := 2.5, repetitions := 2,
        dueDate := none, lastReview := none, learningStep := 0,
        history := some [] }⟩

/-- Counterexample to claim C8: a Review card lacking a `dueDate` does not
fail with any error — `calculateNextReview` silently proceeds and produces a
normal Review result (`interval = round(10 × 2.5) = 25`, fresh
`dueDate = today + 25`, `repetitions` bumped to 3). -/
theorem C8_counterexample :
    (calculateNextReview exMalformedCard 2 {} 0 0 0).state = .review ∧
    (calculateNextReview exMalformedCard 2 {} 0 0 0).interval = 25 ∧
    (calculateNextReview exMalformedCard 2 {} 0 0 0).dueDate = some 25 ∧
    (calculateNextReview exMalformedCard 2 {} 0 0 0).repetitions = 3 := by
  norm_num [calculateNextReview, handleReviewCard, applyFuzz, addDays,
    exMalformedCard, jsOrNum, jsOrList, MIN_EASE_FACTOR,
    DEFAULT_GRADUATING_INTERVAL, DEFAULT_EASY_INTERVAL, max_def, round_eq]
  decide

/-- Amended claim C8: `calculateNextReview` performs no state validation at
all — the input `dueDate` is never read (every branch overwrites it), so a
Review card lacking `dueDate` is processed exactly like one carrying any
value, with the due date recomputed rather than any error raised. -/
theorem C8_dueDate_never_validated (id : ℕ) (sr : SR) (quality : ℤ)
    (settings : Settings) (now today fuzzDraw : ℚ) (d : Option ℚ) :
    calculateNextReview ⟨id, { sr with dueDate := d }⟩ quality settings now
        today fuzzDraw =
      calculateNextReview ⟨id, { sr with dueDate := none }⟩ quality settings
        now today fuzzDraw := by
  obtain ⟨st, itv, ef, reps, due, lastR, step, hist⟩ := sr
  simp only [calculateNextReview, handleLearningCard, handleReviewCard]
  split_ifs <;> rfl

/-- Settings carrying an explicitly empty learning-step sequence. -/
def exEmptySteps : Settings := { learningSteps := some [] }

/-- Counterexample to claim C2: a quality rating of 5 (outside 0–3) together
with empty `learningSteps` does not fail with any error — the call proceeds,
appends a history record (so mutation does occur) and graduates the card. -/
theorem C2_counterexample :
    (calculateNextReview exNewCard 5 exEmptySteps 0 0 0).state = .review ∧
    (calculateNextReview exNewCard 5 exEmptySteps 0 0 0).repetitions = 1 ∧
    (calculateNextReview exNewCard 5 exEmptySteps 0 0 0).interval = 1 ∧
    (calculateNextReview exNewCard 5 exEmptySteps 0 0 0).lastReview =
      some 0 ∧
    ((calculateNextReview exNewCard 5 exEmptySteps 0 0
        0).history.getD []).length = 1 := by
  norm_num [calculateNextReview, handleLearningCard, addDays, exNewCard,
    freshSR, exEmptySteps, jsOrNum, jsOrList, DEFAULT_GRADUATING_INTERVAL,
    reviewRecordOf]

/-- Amended claim C2: `calculateNextReview` performs no input validation and
never fails.  `lastReview` is set and a history record appended
unconditionally (so the "no partial mutation" guarantee cannot hold), and a
New/Learning card rated with any quality other than 0 or 3 under an empty
learning-step sequence simply graduates to Review with the graduating
interval. -/
theorem C2_no_validation (card : Card) (quality : ℤ) (settings : Settings)
    (now today fuzzDraw : ℚ) :
    (calculateNextReview card quality settings now today fuzzDraw).lastReview
        = some now ∧
    (calculateNextReview card quality settings now today fuzzDraw).history =
      some (card.sr.history.getD [] ++ [reviewRecordOf card.sr quality now]) ∧
    ((card.sr.state = .new ∨ card.sr.state = .learning) → quality ≠ 0 →
      quality ≠ 3 → settings.learningSteps = some [] →
      (calculateNextReview card quality settings now today fuzzDraw).state =
          .review ∧
      (calculateNextReview card quality settings now today
          fuzzDraw).repetitions = 1 ∧
      (calculateNextReview card quality settings now today fuzzDraw).interval
          = jsOrNum settings.graduatingInterval DEFAULT_GRADUATING_INTERVAL)
    := by
  obtain ⟨i, st, itv, ef, reps, due, lastR, step, hist⟩ := card
  refine ⟨?_, ?_, ?_⟩
  · simp only [calculateNextReview, handleLearningCard, handleReviewCard]
    split_ifs <;> rfl
  · simp only [calculateNextReview, handleLearningCard, handleReviewCard]
    split_ifs <;> rfl
  · intro hst hq0 hq3 hsteps
    simp only [calculateNextReview, handleLearningCard, jsOrList, hsteps]
    simp only at hst
    rcases hst with h | h <;>
      simp [h, hq0, hq3, List.length_nil, Nat.zero_le]

/-- Witness for the amended claim C2 at the concrete input of the
counterexample: quality 5 with empty learning steps is processed, mutating
history and graduating the card. -/
theorem C2_no_validation_witness :
    (calculateNextReview exNewCard 5 exEmptySteps 0 0 0).lastReview =
        some 0 ∧
    (calculateNextReview exNewCard 5 exEmptySteps 0 0 0).history =
      some (exNewCard.sr.history.getD [] ++
        [reviewRecordOf exNewCard.sr 5 0]) ∧
    ((calculateNextReview exNewCard 5 exEmptySteps 0 0 0).state = .review ∧
      (calculateNextReview exNewCard 5 exEmptySteps 0 0 0).repetitions = 1 ∧
      (calculateNextReview exNewCard 5 exEmptySteps 0 0 0).interval =
        jsOrNum exEmptySteps.graduatingInterval DEFAULT_GRADUATING_INTERVAL)
    := by
  have h := C2_no_validation exNewCard 5 exEmptySteps 0 0 0
  exact ⟨h.1, h.2.1, h.2.2 (Or.inl rfl) (by decide) (by decide) rfl⟩

/-- Counterexample to claim C4: the input card's stored history is NOT left
un-aliased — `{ ...card.sr }` copies the array reference and `push` mutates
the shared array, so after the call the input card of `exNewCard` (whose
stored history was `[]`) carries the freshly appended record. -/
theorem C4_counterexample :
    inputHistoryAfterCall exNewCard 2 0 ≠ exNewCard.sr.history ∧
    exNewCard.sr.history = some [] ∧
    inputHistoryAfterCall exNewCard 2 0 =
      some [reviewRecordOf exNewCard.sr 2 0] := by
  exact ⟨by decide, rfl, rfl⟩

/-- Amended claim C4: every invocation appends exactly one record — whose
`quality` is the input rating and whose `interval` and `easeFactor` are the
pre-update values — to the returned history, leaving the previously stored
records unchanged as a prefix, and sets `lastReview` to the invocation time;
however the returned history aliases the input card's history array whenever
one is present, so the input card's stored history also gains the same
appended record. -/
theorem C4_history_append (card : Card) (quality : ℤ) (settings : Settings)
    (now today fuzzDraw : ℚ) :
    (calculateNextReview card quality settings now today fuzzDraw).history =
      some (card.sr.history.getD [] ++
        [reviewRecordOf card.sr quality now]) ∧
    (reviewRecordOf card.sr quality now).quality = quality ∧
    (reviewRecordOf card.sr quality now).interval = card.sr.interval ∧
    (reviewRecordOf card.sr quality now).easeFactor = card.sr.easeFactor ∧
    (calculateNextReview card quality settings now today fuzzDraw).lastReview
        = some now ∧
    inputHistoryAfterCall card quality now =
      Option.map (fun h => h ++ [reviewRecordOf card.sr quality now])
        card.sr.history := by
  obtain ⟨i, st, itv, ef, reps, due, lastR, step, hist⟩ := card
  refine ⟨?_, rfl, rfl, rfl, ?_, ?_⟩
  · simp only [calculateNextReview, handleLearningCard, handleReviewCard]
    split_ifs <;> rfl
  · simp only [calculateNextReview, handleLearningCard, handleReviewCard]
    split_ifs <;> rfl
  · cases hist <;> rfl

/-- Settings of spec Scenario 1: default learning steps `[1, 10]` and
graduating interval 1, passed explicitly. -/
def c6Settings : Settings :=
  { learningSteps := some [1, 10], graduatingInterval := some 1 }

/-- One engine invocation of spec Scenario 1: quality 2 under `c6Settings`,
with day 0 as "today" and a zero fuzz draw. -/
def c6Step (s : SR) : SR := calculateNextReview ⟨3, s⟩ 2 c6Settings 0 0 0

/-- Counterexample to claim C6: starting from a fresh new card, the THIRD
consecutive quality-2 invocation yields interval 6, not 15 — the first
invocation only advances the learning step (interval still 0), so the
progression 1 → 6 → 15 is shifted one invocation later. -/
theorem C6_counterexample :
    (c6Step (c6Step (c6Step freshSR))).interval = 6 ∧
    (c6Step (c6Step (c6Step freshSR))).interval ≠ 15 := by
  norm_num +decide [c6Step, c6Settings, calculateNextReview, handleLearningCard,
    handleReviewCard, applyFuzz, addDays, freshSR, jsOrNum, jsOrList,
    reviewRecordOf, MIN_EASE_FACTOR, DEFAULT_GRADUATING_INTERVAL,
    DEFAULT_EASY_INTERVAL, DEFAULT_LEARNING_STEPS, max_def, round_eq]

/-- Amended claim C6: four consecutive quality-2 invocations on a fresh new
card under default settings produce interval progression 0 (still Learning)
→ 1 (graduation) → 6 → 15, with the ease factor unchanged at 2.5
throughout; it is the fourth invocation that yields interval 15. -/
theorem C6_interval_progression :
    (c6Step freshSR).state = .learning ∧
    (c6Step freshSR).interval = 0 ∧
    (c6Step freshSR).easeFactor = 2.5 ∧
    (c6Step (c6Step freshSR)).state = .review ∧
    (c6Step (c6Step freshSR)).interval = 1 ∧
    (c6Step (c6Step freshSR)).easeFactor = 2.5 ∧
    (c6Step (c6Step (c6Step freshSR))).interval = 6 ∧
    (c6Step (c6Step (c6Step freshSR))).easeFactor = 2.5 ∧
    (c6Step (c6Step (c6Step (c6Step freshSR)))).interval = 15 ∧
    (c6Step (c6Step (c6Step (c6Step freshSR)))).easeFactor = 2.5 := by
  norm_num +decide [c6Step, c6Settings, calculateNextReview, handleLearningCard,
    handleReviewCard, applyFuzz, addDays, freshSR, jsOrNum, jsOrList,
    reviewRecordOf, MIN_EASE_FACTOR, DEFAULT_GRADUATING_INTERVAL,
    DEFAULT_EASY_INTERVAL, DEFAULT_LEARNING_STEPS, max_def, round_eq]

/-- Ease-factor update exactly as claim C1 words it:
`max(1.3, easeFactor + (0.1 − (3−q)×(0.08 + (3−q)×0.02)))`. -/
def specNewEase (sr : SR) (q : ℤ) : ℚ :=
  max 1.3 (sr.easeFactor + (0.1 - (3 - (q : ℚ)) * (0.08 + (3 - (q : ℚ)) * 0.02)))

/-- Interval base as claim C1 words it: 1 if `repetitions = 0`, 6 if
`repetitions = 1`, otherwise `round(interval × newEaseFactor)`. -/
def specBaseInterval (sr : SR) (ef : ℚ) : ℚ :=
  if sr.repetitions = 0 then 1
  else if sr.repetitions = 1 then 6
  else ((round (sr.interval * ef) : ℤ) : ℚ)

/-- Quality modifier as claim C1 words it: ×0.8 rounded for quality 1, ×1.3
rounded for quality 3, unchanged otherwise. -/
def specQualityModified (q : ℤ) (base : ℚ) : ℚ :=
  if q = 1 then ((round (base * 0.8) : ℤ) : ℚ)
  else if q = 3 then ((round (base * 1.3) : ℤ) : ℚ)
  else base

/-- Fuzz as claim C1 words it: a ±5 % perturbation applied ONLY when the
interval exceeds 7. -/
def specFuzzed (draw m : ℚ) : ℚ :=
  if 7 < m then ((round (m + draw * (m * 0.05)) : ℤ) : ℚ) else m

/-- Final interval of claim C1: fuzzed quality-modified base, clamped to a
minimum of 1. -/
def specFinalInterval (sr : SR) (q : ℤ) (draw : ℚ) : ℚ :=
  max 1 (specFuzzed draw (specQualityModified q (specBaseInterval sr (specNewEase sr q))))

/-- The source `applyFuzz` agrees with the claim-side `specFuzzed`: the
perturbation fires exactly when the interval exceeds 7. -/
theorem applyFuzz_eq_specFuzzed (draw m : ℚ) :
    applyFuzz draw m = specFuzzed draw m := by
  by_cases h : m ≤ 7
  · simp [applyFuzz, specFuzzed, h, not_lt_of_le h]
  · simp [applyFuzz, specFuzzed, h, lt_of_not_le h]

/-- Claim C1: a Review-state card rated quality 1, 2 or 3 gets the SM-2
ease update, the interval base 1 / 6 / `round(interval × newEase)` by
repetition count, the quality modifier, fuzz only above 7 days, the clamp to
at least 1 day, `dueDate = today + interval`, and `repetitions + 1`; and for
a draw in [−1, 1] the pre-rounding fuzz perturbation is within ±5 % of the
interval. -/
theorem C1_review_success (card : Card) (quality : ℤ) (settings : Settings)
    (now today fuzzDraw : ℚ) (hstate : card.sr.state = .review)
    (hq : quality = 1 ∨ quality = 2 ∨ quality = 3) :
    (calculateNextReview card quality settings now today fuzzDraw).easeFactor
        = specNewEase card.sr quality ∧
    (calculateNextReview card quality settings now today fuzzDraw).interval =
      specFinalInterval card.sr quality fuzzDraw ∧
    (calculateNextReview card quality settings now today fuzzDraw).dueDate =
      some (today + specFinalInterval card.sr quality fuzzDraw) ∧
    (calculateNextReview card quality settings now today
        fuzzDraw).repetitions = card.sr.repetitions + 1 ∧
    (∀ m : ℚ, 7 < m → -1 ≤ fuzzDraw → fuzzDraw ≤ 1 →
      |m + fuzzDraw * (m * 0.05) - m| ≤ 0.05 * m) := by
  have hq0 : quality ≠ 0 := by rcases hq with h | h | h <;> simp [h]
  refine ⟨?_, ?_, ?_, ?_, ?_⟩
  · simp [calculateNextReview, handleReviewCard, hstate, hq0, specNewEase,
      MIN_EASE_FACTOR]
  · simp [calculateNextReview, handleReviewCard, hstate, hq0,
      specFinalInterval, specQualityModified, specBaseInterval, specNewEase,
      applyFuzz_eq_specFuzzed, MIN_EASE_FACTOR]
  · simp [calculateNextReview, handleReviewCard, hstate, hq0,
      specFinalInterval, specQualityModified, specBaseInterval, specNewEase,
      applyFuzz_eq_specFuzzed, MIN_EASE_FACTOR, addDays]
  · simp [calculateNextReview, handleReviewCard, hstate, hq0]
  · intro m hm h1 h2
    have heq : m + fuzzDraw * (m * 0.05) - m = fuzzDraw * (m * 0.05) := by
      ring
    rw [heq, abs_mul]
    have hm05 : (0 : ℚ) < m * 0.05 := by nlinarith
    have habs : |m * 0.05| = m * 0.05 := abs_of_pos hm05
    rw [habs]
    have hd : |fuzzDraw| ≤ 1 := abs_le.mpr ⟨h1, h2⟩
    nlinarith [abs_nonneg fuzzDraw]

/-- Review-state card used to witness claim C1: `interval = 10`,
`easeFactor = 2.5`, `repetitions = 2`. -/
def exReviewCard : Card :=
  ⟨11, { state := .review, interval := 10, easeFactor := 2.5,
         repetitions := 2, dueDate := some 50, lastReview := none,
         learningStep := 0, history := some [] }⟩

/-- Witness for claim C1 at quality 3 with fuzz draw 1: the ease factor
becomes 2.6 and the interval round(round(10×2.6)×1.3) = 34, fuzzed up to
round(34 + 1.7) = 36. -/
theorem C1_review_success_witness :
    ((calculateNextReview exReviewCard 3 {} 0 0 1).easeFactor =
        specNewEase exReviewCard.sr 3 ∧
      (calculateNextReview exReviewCard 3 {} 0 0 1).interval =
        specFinalInterval exReviewCard.sr 3 1 ∧
      (calculateNextReview exReviewCard 3 {} 0 0 1).dueDate =
        some (0 + specFinalInterval exReviewCard.sr 3 1) ∧
      (calculateNextReview exReviewCard 3 {} 0 0 1).repetitions =
        exReviewCard.sr.repetitions + 1 ∧
      (∀ m : ℚ, 7 < m → -1 ≤ (1 : ℚ) → (1 : ℚ) ≤ 1 →
        |m + 1 * (m * 0.05) - m| ≤ 0.05 * m)) ∧
    specNewEase exReviewCard.sr 3 = 2.6 ∧
    specFinalInterval exReviewCard.sr 3 1 = 36 := by
  refine ⟨C1_review_success exReviewCard 3 {} 0 0 1 rfl
    (Or.inr (Or.inr rfl)), ?_, ?_⟩
  · norm_num [specNewEase, exReviewCard, max_def]
  · norm_num [specFinalInterval, specFuzzed, specQualityModified,
      specBaseInterval, specNewEase, exReviewCard, max_def, round_eq]

/-- Arithmetic mean of the ease factors, as claim C9 words it. -/
def meanEase (cards : List Card) : ℚ :=
  (cards.map fun c => c.sr.easeFactor).sum / (cards.length : ℚ)

/-- Total number of history records across all supplied cards, as claim C9
words it. -/
def totalReviews (cards : List Card) : ℕ :=
  (cards.map fun c => (c.sr.history.getD []).length).sum

/-- Number of history records with quality ≥ 2 across all supplied cards, as
claim C9 words it. -/
def correctReviews (cards : List Card) : ℕ :=
  (cards.map fun c =>
    ((c.sr.history.getD []).filter fun rev => decide (2 ≤ rev.quality)).length).sum

/-- Each `getStudyStats` iteration adds the card's ease factor to the
running total, whatever bucket the card falls into. -/
theorem statsStep_ease (today : ℚ) (acc : ℕ × ℕ × ℕ × ℕ × ℚ) (c : Card) :
    (statsStep today acc c).2.2.2.2 = acc.2.2.2.2 + c.sr.easeFactor := by
  obtain ⟨n, l, r, d, te⟩ := acc
  cases h : c.sr.state <;> simp only [statsStep, h] <;> split_ifs <;> rfl

/-- The ease-sum accumulator of `getStudyStats` computes the list sum. -/
theorem foldl_statsStep_ease (today : ℚ) :
    ∀ (cards : List Card) (acc : ℕ × ℕ × ℕ × ℕ × ℚ),
      (cards.foldl (statsStep today) acc).2.2.2.2 =
        acc.2.2.2.2 + (cards.map fun c => c.sr.easeFactor).sum := by
  intro cards
  induction cards with
  | nil => intro acc; simp
  | cons c cs ih =>
    intro acc
    rw [List.foldl_cons, ih, statsStep_ease, List.map_cons, List.sum_cons]
    ring

/-- The inner history fold of `calculateRetention` counts records and
quality-≥-2 records. -/
theorem hist_foldl (h : List ReviewRecord) :
    ∀ acc : ℕ × ℕ,
      h.foldl
        (fun a rev => (a.1 + 1, if 2 ≤ rev.quality then a.2 + 1 else a.2))
        acc =
      (acc.1 + h.length,
        acc.2 + (h.filter fun rev => decide (2 ≤ rev.quality)).length) := by
  induction h with
  | nil => intro acc; simp
  | cons rev rs ih =>
    intro acc
    rw [List.foldl_cons, ih]
    by_cases hrev : 2 ≤ rev.quality <;>
      simp [hrev, List.filter_cons] <;> omega

/-- One `calculateRetention` iteration adds the card's record counts. -/
theorem retentionStep_eq (acc : ℕ × ℕ) (c : Card) :
    retentionStep acc c =
      (acc.1 + (c.sr.history.getD []).length,
        acc.2 + ((c.sr.history.getD []).filter fun rev =>
          decide (2 ≤ rev.quality)).length) := by
  cases h : c.sr.history
  · simp [retentionStep, h]
  · simp [retentionStep, h, hist_foldl]

/-- The `calculateRetention` fold computes `totalReviews` and
`correctReviews`. -/
theorem foldl_retentionStep :
    ∀ (cards : List Card) (acc : ℕ × ℕ),
      cards.foldl retentionStep acc =
        (acc.1 + totalReviews cards, acc.2 + correctReviews cards) := by
  intro cards
  induction cards with
  | nil => intro acc; simp [totalReviews, correctReviews]
  | cons c cs ih =>
    intro acc
    rw [List.foldl_cons, retentionStep_eq, ih]
    simp [totalReviews, correctReviews]
    omega

/-- Claim C9: `getStudyStats` returns the arithmetic mean of the ease
factors (2.5 on an empty input, where also `total = 0` and `dueToday = 0`),
and `calculateRetention` returns `100 × (records with quality ≥ 2) / (all
records)`, or 0 when no history record exists. -/
theorem C9_stats_and_retention :
    (∀ (today : ℚ) (cards : List Card),
      (getStudyStats today cards).averageEase =
        if cards = [] then DEFAULT_EASE_FACTOR else meanEase cards) ∧
    (∀ today : ℚ, getStudyStats today [] =
      { total := 0, new := 0, learning := 0, review := 0, dueToday := 0,
        averageEase := DEFAULT_EASE_FACTOR }) ∧
    (∀ cards : List Card,
      calculateRetention cards =
        if totalReviews cards = 0 then 0
        else 100 * (correctReviews cards : ℚ) / (totalReviews cards : ℚ)) := by
  refine ⟨?_, ?_, ?_⟩
  · intro today cards
    cases cards with
    | nil => simp [getStudyStats]
    | cons c cs =>
      simp only [getStudyStats, foldl_statsStep_ease, meanEase]
      simp [List.length_cons]
  · intro today
    rfl
  · intro cards
    rw [calculateRetention, foldl_retentionStep]
    rcases Nat.eq_zero_or_pos (totalReviews cards) with h | h
    · simp [h]
    · rw [if_pos (by simpa using h), if_neg (by omega)]
      ring

/-- Claim C10: numeric settings equal to 0 are treated as absent because
defaults are applied with JavaScript `||` — supplying 0 for
`graduatingInterval`, `easyInterval`, `newCardsPerDay` or `reviewsPerDay`
behaves exactly like omitting the field (so the defaults 1, 4, 20, 200
apply); a queue built from 21 new cards with `newCardsPerDay = 0` still
admits 20 of them; and an empty `learningSteps` array, being truthy, is NOT
replaced by the default steps — it changes behaviour (immediate graduation)
relative to an absent field. -/
theorem C10_zero_settings_behave_as_absent :
    (∀ (card : Card) (q : ℤ) (ls : Option (List ℚ)) (ei : Option ℚ)
        (nc rv : Option ℕ) (now today r : ℚ),
      calculateNextReview card q ⟨ls, some 0, ei, nc, rv⟩ now today r =
        calculateNextReview card q ⟨ls, none, ei, nc, rv⟩ now today r) ∧
    (∀ (card : Card) (q : ℤ) (ls : Option (List ℚ)) (gi : Option ℚ)
        (nc rv : Option ℕ) (now today r : ℚ),
      calculateNextReview card q ⟨ls, gi, some 0, nc, rv⟩ now today r =
        calculateNextReview card q ⟨ls, gi, none, nc, rv⟩ now today r) ∧
    (∀ (today : ℚ) (ls : Option (List ℚ)) (gi ei : Option ℚ)
        (rv : Option ℕ) (cards : List Card),
      startStudySessionQueue today (some ⟨ls, gi, ei, some 0, rv⟩) cards =
        startStudySessionQueue today (some ⟨ls, gi, ei, none, rv⟩) cards) ∧
    (∀ (today : ℚ) (ls : Option (List ℚ)) (gi ei : Option ℚ)
        (nc : Option ℕ) (cards : List Card),
      startStudySessionQueue today (some ⟨ls, gi, ei, nc, some 0⟩) cards =
        startStudySessionQueue today (some ⟨ls, gi, ei, nc, none⟩) cards) ∧
    (startStudySessionQueue 0 (some ⟨none, none, none, some 0, none⟩)
        (List.replicate 21 exNewCard)).length = 20 ∧
    (calculateNextReview exNewCard 2 ⟨some [], none, none, none, none⟩
        0 0 0).state = .review ∧
    (calculateNextReview exNewCard 2 ⟨none, none, none, none, none⟩
        0 0 0).state = .learning := by
  refine ⟨?_, ?_, ?_, ?_, ?_, ?_, ?_⟩
  · intro card q ls ei nc rv now today r
    simp [calculateNextReview, jsOrNum]
  · intro card q ls gi nc rv now today r
    simp [calculateNextReview, jsOrNum]
  · intro today ls gi ei rv cards
    simp [startStudySessionQueue, jsOrNat]
  · intro today ls gi ei nc cards
    simp [startStudySessionQueue, jsOrNat]
  · decide
  · decide
  · decide

/-- Ordering law of claim C5 for overdue cards: any earlier overdue card in
the queue has a due date at most that of any later overdue card (so strictly
older due dates come strictly earlier, regardless of ease factor). -/
abbrev overdueOrderLaw (today : ℚ) (a b : Card) : Prop :=
  isOverdueFor today a = true → isOverdueFor today b = true →
    dueKey a ≤ dueKey b

/-- Ordering law of claim C5 for due-today cards: ascending ease factor. -/
abbrev dueTodayOrderLaw (today : ℚ) (a b : Card) : Prop :=
  isDueTodayFor today a = true → isDueTodayFor today b = true →
    a.sr.easeFactor ≤ b.sr.easeFactor

/-- Ordering law of claim C5 for learning cards: ascending learning step. -/
abbrev learningOrderLaw (a b : Card) : Prop :=
  isLearning a = true → isLearning b = true →
    a.sr.learningStep ≤ b.sr.learningStep

/-- A list all of whose elements fail the guard is vacuously pairwise for a
guarded relation. -/
theorem pairwise_guarded {α : Type} {p : α → Bool} {R : α → α → Prop}
    {l : List α} (h : ∀ x ∈ l, p x = false) :
    l.Pairwise fun a b => p a = true → p b = true → R a b := by
  induction l with
  | nil => exact List.Pairwise.nil
  | cons x xs ih =>
    refine List.Pairwise.cons (fun y _ hx _ => ?_)
      (ih fun y hy => h y (List.mem_cons_of_mem _ hy))
    rw [h x (List.mem_cons_self x xs)] at hx
    cases hx

/-- Membership in a sorted filter bucket yields the bucket predicate. -/
theorem mem_sorted_filter {r : Card → Card → Prop} [DecidableRel r]
    {p : Card → Bool} {cards : List Card} {x : Card}
    (hx : x ∈ List.insertionSort r (cards.filter p)) : p x = true := by
  rw [List.mem_insertionSort] at hx
  exact (List.mem_filter.mp hx).2

/-- An overdue card is not in the due-today category. -/
theorem overdue_not_dueToday {today : ℚ} {x : Card}
    (h : isOverdueFor today x = true) : isDueTodayFor today x = false := by
  rw [Bool.eq_false_iff]
  intro h2
  simp only [isOverdueFor, Bool.and_eq_true, decide_eq_true_eq] at h
  simp only [isDueTodayFor, Bool.and_eq_true, decide_eq_true_eq] at h2
  exact absurd h2.2 (ne_of_lt h.2)

/-- A due-today card is not in the overdue category. -/
theorem dueToday_not_overdue {today : ℚ} {x : Card}
    (h : isDueTodayFor today x = true) : isOverdueFor today x = false := by
  rw [Bool.eq_false_iff]
  intro h2
  simp only [isOverdueFor, Bool.and_eq_true, decide_eq_true_eq] at h2
  simp only [isDueTodayFor, Bool.and_eq_true, decide_eq_true_eq] at h
  exact absurd h.2 (ne_of_lt h2.2)

/-- A learning card is not in the overdue category. -/
theorem learning_not_overdue {today : ℚ} {x : Card}
    (h : isLearning x = true) : isOverdueFor today x = false := by
  simp [isOverdueFor, h]

/-- A learning card is not in the due-today category. -/
theorem learning_not_dueToday {today : ℚ} {x : Card}
    (h : isLearning x = true) : isDueTodayFor today x = false := by
  simp [isDueTodayFor, h]

/-- A new card is not in the overdue category. -/
theorem new_not_overdue {today : ℚ} {x : Card}
    (h : isNew x = true) : isOverdueFor today x = false := by
  simp [isOverdueFor, h]

/-- A new card is not in the due-today category. -/
theorem new_not_dueToday {today : ℚ} {x : Card}
    (h : isNew x = true) : isDueTodayFor today x = false := by
  simp [isDueTodayFor, h]

/-- A new card is not a learning card. -/
theorem new_not_learning {x : Card} (h : isNew x = true) :
    isLearning x = false := by
  simp only [isNew, beq_iff_eq] at h
  simp [isLearning, h]

/-- A learning card is not a new card. -/
theorem learning_not_new {x : Card} (h : isLearning x = true) :
    isNew x = false := by
  simp only [isLearning, beq_iff_eq] at h
  simp [isNew, h]

/-- An overdue card is not a new card. -/
theorem overdue_not_new {today : ℚ} {x : Card}
    (h : isOverdueFor today x = true) : isNew x = false := by
  simp only [isOverdueFor, Bool.and_eq_true, Bool.not_eq_true'] at h
  exact h.1.1.1

/-- A due-today card is not a new card. -/
theorem dueToday_not_new {today : ℚ} {x : Card}
    (h : isDueTodayFor today x = true) : isNew x = false := by
  simp only [isDueTodayFor, Bool.and_eq_true, Bool.not_eq_true'] at h
  exact h.1.1.1

/-- An overdue card is not a learning card. -/
theorem overdue_not_learning {today : ℚ} {x : Card}
    (h : isOverdueFor today x = true) : isLearning x = false := by
  simp only [isOverdueFor, Bool.and_eq_true, Bool.not_eq_true'] at h
  exact h.1.1.2

/-- A due-today card is not a learning card. -/
theorem dueToday_not_learning {today : ℚ} {x : Card}
    (h : isDueTodayFor today x = true) : isLearning x = false := by
  simp only [isDueTodayFor, Bool.and_eq_true, Bool.not_eq_true'] at h
  exact h.1.1.2

/-- Every member of the queue segments after the overdue bucket fails the
overdue test. -/
theorem rest_not_overdue {today : ℚ} {cards : List Card} {x : Card}
    (hx : x ∈ List.insertionSort rEase (cards.filter (isDueTodayFor today))
        ++ (List.insertionSort rStep (cards.filter isLearning) ++
            cards.filter isNew)) :
    isOverdueFor today x = false := by
  rcases List.mem_append.mp hx with hB | hLN
  · exact dueToday_not_overdue (mem_sorted_filter hB)
  · rcases List.mem_append.mp hLN with hL | hN
    · exact learning_not_overdue (mem_sorted_filter hL)
    · exact new_not_overdue (List.mem_filter.mp hN).2

/-- Every member of the learning and new segments fails the due-today
test. -/
theorem tail_not_dueToday {today : ℚ} {cards : List Card} {x : Card}
    (hx : x ∈ List.insertionSort rStep (cards.filter isLearning) ++
        cards.filter isNew) :
    isDueTodayFor today x = false := by
  rcases List.mem_append.mp hx with hL | hN
  · exact learning_not_dueToday (mem_sorted_filter hL)
  · exact new_not_dueToday (List.mem_filter.mp hN).2

/-- The overdue review card of spec Scenario 5 (due day 90, "today" being
day 100). -/
def exOverdueCard : Card :=
  ⟨21, { state := .review, interval := 10, easeFactor := 2, repetitions := 3,
         dueDate := some 90, lastReview := none, learningStep := 0,
         history := none }⟩

/-- The due-today review card of spec Scenario 5. -/
def exDueTodayCard : Card :=
  ⟨22, { state := .review, interval := 5, easeFactor := 3, repetitions := 2,
         dueDate := some 100, lastReview := none, learningStep := 0,
         history := none }⟩

/-- The new card of spec Scenario 5. -/
def exNewQueueCard : Card :=
  ⟨23, { state := .new, interval := 0, easeFactor := 2, repetitions := 0,
         dueDate := none, lastReview := none, learningStep := 0,
         history := some [] }⟩

/-- Claim C5: the built study queue concatenates overdue reviews (ascending
due date), due-today reviews (ascending ease factor), learning cards
(ascending learning step), then new cards in input order; in particular any
two overdue cards appear in due-date order regardless of ease factor, and
the three-card Scenario 5 comes back as overdue, due-today, new. -/
theorem C5_queue_ordering :
    (∀ (today : ℚ) (cards : List Card),
      (sortStudyQueue today cards).Pairwise (overdueOrderLaw today)) ∧
    (∀ (today : ℚ) (cards : List Card),
      (sortStudyQueue today cards).Pairwise (dueTodayOrderLaw today)) ∧
    (∀ (today : ℚ) (cards : List Card),
      (sortStudyQueue today cards).Pairwise learningOrderLaw) ∧
    (∀ (today : ℚ) (cards : List Card),
      (sortStudyQueue today cards).filter isNew = cards.filter isNew) ∧
    sortStudyQueue 100 [exNewQueueCard, exDueTodayCard, exOverdueCard] =
      [exOverdueCard, exDueTodayCard, exNewQueueCard] := by
  refine ⟨?_, ?_, ?_, ?_, by decide⟩
  · intro today cards
    simp only [sortStudyQueue]
    rw [List.append_assoc, List.append_assoc, List.pairwise_append]
    refine ⟨?_, ?_, ?_⟩
    · exact (List.sorted_insertionSort rDue _).imp fun hr _ _ => hr
    · exact pairwise_guarded fun x hx => rest_not_overdue hx
    · intro a _ b hb h1 h2
      rw [rest_not_overdue hb] at h2
      cases h2
  · intro today cards
    simp only [sortStudyQueue]
    rw [List.append_assoc, List.append_assoc, List.pairwise_append]
    refine ⟨pairwise_guarded fun x hx =>
        overdue_not_dueToday (mem_sorted_filter hx), ?_, ?_⟩
    · rw [List.pairwise_append]
      refine ⟨?_, ?_, ?_⟩
      · exact (List.sorted_insertionSort rEase _).imp fun hr _ _ => hr
      · exact pairwise_guarded fun x hx => tail_not_dueToday hx
      · intro a _ b hb h1 h2
        rw [tail_not_dueToday hb] at h2
        cases h2
    · intro a ha b _ h1 h2
      rw [overdue_not_dueToday (mem_sorted_filter ha)] at h1
      cases h1
  · intro today cards
    simp only [sortStudyQueue]
    rw [List.append_assoc, List.append_assoc, List.pairwise_append]
    refine ⟨pairwise_guarded fun x hx =>
        overdue_not_learning (mem_sorted_filter hx), ?_, ?_⟩
    · rw [List.pairwise_append]
      refine ⟨pairwise_guarded fun x hx =>
          dueToday_not_learning (mem_sorted_filter hx), ?_, ?_⟩
      · rw [List.pairwise_append]
        refine ⟨?_, ?_, ?_⟩
        · exact (List.sorted_insertionSort rStep _).imp fun hr _ _ => hr
        · exact pairwise_guarded fun x hx =>
            new_not_learning (List.mem_filter.mp hx).2
        · intro a _ b hb h1 h2
          rw [new_not_learning (List.mem_filter.mp hb).2] at h2
          cases h2
      · intro a ha b _ h1 h2
        rw [dueToday_not_learning (mem_sorted_filter ha)] at h1
        cases h1
    · intro a ha b _ h1 h2
      rw [overdue_not_learning (mem_sorted_filter ha)] at h1
      cases h1
  · intro today cards
    simp only [sortStudyQueue]
    rw [List.append_assoc, List.append_assoc, List.filter_append,
      List.filter_append, List.filter_append]
    rw [List.filter_eq_nil_iff.mpr fun a ha => by
        simp [overdue_not_new (mem_sorted_filter ha)]]
    rw [List.filter_eq_nil_iff.mpr fun a ha => by
        simp [dueToday_not_new (mem_sorted_filter ha)]]
    rw [List.filter_eq_nil_iff.mpr fun a ha => by
        simp [learning_not_new (mem_sorted_filter ha)]]
    rw [List.filter_eq_self.mpr fun a ha => (List.mem_filter.mp ha).2]
    simp

end SRAlgorithm
